import Mathlib

/-!
Verification of the joe-gemini GitHub bot (src/api/index.py, src/autonomous_bot.py).

Python strings are modelled as `List Char` (`Str`); Python's truthiness,
`str.lower()`, `in`, `str.split`, `str.strip()` and the concrete regular
expressions used by the source are modelled by executable functions below.
External collaborators (the GitHub REST API, `json.dumps`) are modelled by
explicit state passing respectively abstract serialisation functions;
`json.loads` is modelled by a concrete JSON parser over a `JVal` value type.
-/

/-- Python strings as lists of unicode scalar values. -/
abbrev Str := List Char

/-- Coerce a Lean string literal to the `Str` model. -/
def str (s : String) : Str := s.data

/-- The characters matched by CPython's `\s` / default `str.strip()` in the
ASCII range (space, tab, newline, carriage return, vertical tab, form feed).
Non-ASCII unicode whitespace is not exercised by any claim and is omitted. -/
def isPySpace (c : Char) : Bool :=
  c = ' ' || c = '\t' || c = '\n' || c = '\r' || c = Char.ofNat 11 || c = Char.ofNat 12

/-- Python `str.strip()` (also the effect of the `\s*` groups framing the
lazy capture groups in the source's regular expressions). -/
def pyStrip (l : Str) : Str :=
  ((l.dropWhile isPySpace).reverse.dropWhile isPySpace).reverse

/-- Python `str.lower()` (character-wise lowering; ASCII-faithful). -/
def pyLower (l : Str) : Str := l.map Char.toLower

/-- Python's substring test `pat in l`. -/
def pyIn (pat : Str) : Str → Bool
  | [] => pat.isEmpty
  | c :: t => pat.isPrefixOf (c :: t) || pyIn pat t

/-- Split before the first occurrence of `pat`: returns the text before the
occurrence and the text after it (the building block for modelling the
source's leftmost regex matches). -/
def firstSplit (pat : Str) : Str → Option (Str × Str)
  | [] => if pat.isEmpty then some ([], []) else none
  | c :: t =>
    if pat.isPrefixOf (c :: t) then some ([], (c :: t).drop pat.length)
    else (firstSplit pat t).map (fun p => (c :: p.1, p.2))

/-- Python `str.split(sep)` for a one-character separator. -/
def pySplitChar (sep : Char) : Str → List Str
  | [] => [[]]
  | c :: t =>
    if c = sep then [] :: pySplitChar sep t
    else
      match pySplitChar sep t with
      | h :: r => (c :: h) :: r
      | [] => [[c]]

/-- JSON values as produced by Python's `json.loads`. Numbers are kept as
their source lexemes (the distinction between e.g. `1` and `1.0` is never
exercised by a claim); object members keep their textual order, with the
Python-dict "last duplicate key wins" rule applied at lookup time. -/
inductive JVal where
  | jnull
  | jbool (b : Bool)
  | jnum (lexeme : Str)
  | jstr (s : Str)
  | jarr (xs : List JVal)
  | jobj (kvs : List (Str × JVal))

/-- JSON whitespace as skipped by CPython's `json` scanner (` \t\n\r`). -/
def isJsonWs (c : Char) : Bool := c = ' ' || c = '\t' || c = '\n' || c = '\r'

def skipWs (l : Str) : Str := l.dropWhile isJsonWs

def hexDigitVal (c : Char) : Option Nat :=
  if '0' ≤ c && c ≤ '9' then some (c.toNat - 48)
  else if 'a' ≤ c && c ≤ 'f' then some (c.toNat - 87)
  else if 'A' ≤ c && c ≤ 'F' then some (c.toNat - 55)
  else none

/-- Decode a scalar value for the model; CPython can hold lone surrogates in
a `str`, which `Char` cannot, so those degrade to U+0000 (never exercised). -/
def charOfCode (n : Nat) : Char := Char.ofNat n

/-- Parse the body of a JSON string after the opening quote, handling the
escape sequences accepted by `json.loads` (strict mode: raw control
characters below U+0020 are rejected); returns the decoded text and the
remainder after the closing quote. -/
def parseStringBody : Nat → Str → Str → Option (Str × Str)
  | 0, _, _ => none
  | _, _, [] => none
  | fuel + 1, acc, c :: t =>
    if c = '"' then some (acc, t)
    else if c = '\\' then
      match t with
      | '"' :: r => parseStringBody fuel (acc ++ ['"']) r
      | '\\' :: r => parseStringBody fuel (acc ++ ['\\']) r
      | '/' :: r => parseStringBody fuel (acc ++ ['/']) r
      | 'b' :: r => parseStringBody fuel (acc ++ [Char.ofNat 8]) r
      | 'f' :: r => parseStringBody fuel (acc ++ [Char.ofNat 12]) r
      | 'n' :: r => parseStringBody fuel (acc ++ ['\n']) r
      | 'r' :: r => parseStringBody fuel (acc ++ ['\r']) r
      | 't' :: r => parseStringBody fuel (acc ++ ['\t']) r
      | 'u' :: h1 :: h2 :: h3 :: h4 :: r =>
        match hexDigitVal h1, hexDigitVal h2, hexDigitVal h3, hexDigitVal h4 with
        | some a, some b, some cc, some d =>
          let code := ((a * 16 + b) * 16 + cc) * 16 + d
          if 0xd800 ≤ code && code ≤ 0xdbff then
            match r with
            | '\\' :: 'u' :: g1 :: g2 :: g3 :: g4 :: r2 =>
              match hexDigitVal g1, hexDigitVal g2, hexDigitVal g3, hexDigitVal g4 with
              | some a2, some b2, some c2, some d2 =>
                let lo := ((a2 * 16 + b2) * 16 + c2) * 16 + d2
                if 0xdc00 ≤ lo && lo ≤ 0xdfff then
                  parseStringBody fuel
                    (acc ++ [charOfCode (0x10000 + (code - 0xd800) * 0x400 + (lo - 0xdc00))]) r2
                else parseStringBody fuel (acc ++ [charOfCode code]) r
              | _, _, _, _ => parseStringBody fuel (acc ++ [charOfCode code]) r
            | _ => parseStringBody fuel (acc ++ [charOfCode code]) r
          else parseStringBody fuel (acc ++ [charOfCode code]) r
        | _, _, _, _ => none
      | _ => none
    else if c.toNat < 0x20 then none
    else parseStringBody fuel (acc ++ [c]) t

def takeDigits (l : Str) : Str × Str := (l.takeWhile Char.isDigit, l.dropWhile Char.isDigit)

/-- The optional fraction part `(\.\d+)?` of the JSON number grammar. -/
def parseFrac (l : Str) : Str × Str :=
  match l with
  | '.' :: t =>
    match takeDigits t with
    | ([], _) => ([], l)
    | (ds, r) => ('.' :: ds, r)
  | _ => ([], l)

/-- The optional exponent part `([eE][+-]?\d+)?` of the JSON number grammar. -/
def parseExp (l : Str) : Str × Str :=
  match l with
  | c :: t =>
    if c = 'e' || c = 'E' then
      let sg : Str × Str :=
        match t with
        | s :: t2 => if s = '+' || s = '-' then ([s], t2) else ([], t)
        | [] => ([], t)
      match takeDigits sg.2 with
      | ([], _) => ([], l)
      | (ds, r) => (c :: (sg.1 ++ ds), r)
    else ([], l)
  | [] => ([], l)

/-- A JSON number per `json.decoder.NUMBER_RE`: `-?(0|[1-9]\d*)(\.\d+)?([eE][+-]?\d+)?`. -/
def parseNumber (l : Str) : Option (Str × Str) :=
  let sign : Str × Str := match l with | '-' :: t => (['-'], t) | _ => ([], l)
  match sign.2 with
  | '0' :: t =>
    let f := parseFrac t
    let e := parseExp f.2
    some (sign.1 ++ ['0'] ++ f.1 ++ e.1, e.2)
  | c :: t =>
    if c.isDigit then
      let ds := takeDigits t
      let f := parseFrac ds.2
      let e := parseExp f.2
      some (sign.1 ++ [c] ++ ds.1 ++ f.1 ++ e.1, e.2)
    else none
  | [] => none

mutual
/-- Parse one JSON value at the head of the input (whitespace already
consumed by the caller), returning the value and the remaining input;
mirrors CPython's `json.scanner` including the `NaN`/`Infinity` extensions. -/
def parseVal : Nat → Str → Option (JVal × Str)
  | 0, _ => none
  | fuel + 1, l =>
    match l with
    | [] => none
    | c :: t =>
      if c = '"' then (parseStringBody (t.length + 1) [] t).map (fun p => (JVal.jstr p.1, p.2))
      else if c = '\x7b' then parseMembers fuel (skipWs t) true
      else if c = '[' then parseElems fuel (skipWs t) true
      else if (str "null").isPrefixOf l then some (JVal.jnull, l.drop 4)
      else if (str "true").isPrefixOf l then some (JVal.jbool true, l.drop 4)
      else if (str "false").isPrefixOf l then some (JVal.jbool false, l.drop 5)
      else if (str "NaN").isPrefixOf l then some (JVal.jnum (str "NaN"), l.drop 3)
      else if (str "Infinity").isPrefixOf l then some (JVal.jnum (str "Infinity"), l.drop 8)
      else if (str "-Infinity").isPrefixOf l then some (JVal.jnum (str "-Infinity"), l.drop 9)
      else (parseNumber l).map (fun p => (JVal.jnum p.1, p.2))

/-- Parse the members of a JSON object after `{` (input whitespace-skipped);
`first` is true before the first member, so that `}` closes an empty object. -/
def parseMembers : Nat → Str → Bool → Option (JVal × Str)
  | 0, _, _ => none
  | fuel + 1, l, first =>
    match l with
    | '\x7d' :: t => if first then some (JVal.jobj [], t) else none
    | '"' :: t =>
      match parseStringBody (t.length + 1) [] t with
      | none => none
      | some (key, r1) =>
        match skipWs r1 with
        | ':' :: r2 =>
          match parseVal fuel (skipWs r2) with
          | none => none
          | some (v, r3) =>
            match skipWs r3 with
            | ',' :: r4 =>
              match parseMembers fuel (skipWs r4) false with
              | some (JVal.jobj kvs, r5) => some (JVal.jobj ((key, v) :: kvs), r5)
              | _ => none
            | '\x7d' :: r4 => some (JVal.jobj [(key, v)], r4)
            | _ => none
        | _ => none
    | _ => none

/-- Parse the elements of a JSON array after `[` (input whitespace-skipped);
`first` is true before the first element, so that `]` closes an empty array. -/
def parseElems : Nat → Str → Bool → Option (JVal × Str)
  | 0, _, _ => none
  | fuel + 1, l, first =>
    if l.headD ' ' = ']' && first then some (JVal.jarr [], l.drop 1)
    else
      match parseVal fuel l with
      | none => none
      | some (v, r1) =>
        match skipWs r1 with
        | ',' :: r2 =>
          match parseElems fuel (skipWs r2) false with
          | some (JVal.jarr xs, r3) => some (JVal.jarr (v :: xs), r3)
          | _ => none
        | ']' :: r2 => some (JVal.jarr [v], r2)
        | _ => none
end

/-- Python `json.loads`: skip leading whitespace, parse one value, and require
only whitespace to remain ("Extra data" otherwise). -/
def parseJson (l : Str) : Option JVal :=
  match parseVal (l.length + 1) (skipWs l) with
  | none => none
  | some (v, rest) => if skipWs rest = [] then some v else none

/-- The leftmost match of `re.search(openPat + r'\s*([\s\S]*?)\s*```', text)`
for a fence-opening literal `openPat`: the first position where `openPat`
occurs and a closing triple backtick follows the opening; the lazy group with
its framing `\s*` captures the text between them, whitespace-trimmed. -/
def fenced (openPat : Str) : Str → Option Str
  | [] => none
  | c :: t =>
    if openPat.isPrefixOf (c :: t) then
      match firstSplit (str "```") ((c :: t).drop openPat.length) with
      | some (a, _) => some (pyStrip a)
      | none => none
    else fenced openPat t

/-- Whether `"files"` (with quotes) occurs with a closing brace after it —
the condition for the pattern `\{[\s\S]*"files"[\s\S]*\}` to match from a
given opening brace. -/
def filesThenBrace : Str → Bool
  | [] => false
  | c :: t =>
    ((str "\"files\"").isPrefixOf (c :: t) && ((c :: t).drop 7).contains '\x7d')
      || filesThenBrace t

/-- Truncate at the last `}` inclusive (the greedy end of the brace pattern). -/
def takeToLastBrace (m : Str) : Str :=
  (m.reverse.dropWhile (fun c => !(c = '\x7d'))).reverse

/-- The leftmost match of `re.search(r'\{[\s\S]*"files"[\s\S]*\}', text)`:
group 0 runs from the first `{` that is followed by `"files"` and a later
`}`, greedily out to the last `}` of the text. -/
def bracesFiles : Str → Option Str
  | [] => none
  | c :: t =>
    if c = '\x7b' && filesThenBrace t then some (takeToLastBrace (c :: t))
    else bracesFiles t

/-- Model of `extract_json_from_response` (src/api/index.py:194-204 and
src/autonomous_bot.py:149-168): falsy input gives None; otherwise the three
regex patterns are tried in order, moving to the next pattern when the
pattern does not match or when `json.loads` fails on its captured text
(group 1 for the fenced patterns, group 0 for the brace pattern). -/
def extract_json_from_response (text : Option Str) : Option JVal :=
  match text with
  | none => none
  | some t =>
    if t.isEmpty then none
    else
      ((fenced (str "```json") t).bind parseJson)
        <|> ((fenced (str "```") t).bind parseJson)
        <|> ((bracesFiles t).bind parseJson)

/-- Successive fenced blocks for an opening literal: each block's trimmed
body, resuming the scan after the block's closing fence (used to state the
claim's "first fenced block whose body is valid JSON"). -/
def fenceBlocksAux (openPat : Str) : Nat → Str → List Str
  | 0, _ => []
  | _, [] => []
  | fuel + 1, c :: t =>
    if openPat.isPrefixOf (c :: t) then
      match firstSplit (str "```") ((c :: t).drop openPat.length) with
      | some (a, rest) => pyStrip a :: fenceBlocksAux openPat fuel rest
      | none => []
    else fenceBlocksAux openPat fuel t

def fenceBlocks (openPat t : Str) : List Str := fenceBlocksAux openPat t.length t

/-- The first body in a list that parses as JSON, and its parse. -/
def firstValidJson (bodies : List Str) : Option JVal :=
  bodies.foldl (fun acc b => acc <|> parseJson b) none

/-- Claim C2 as stated: the parsed value of the first ```json block whose
body is valid JSON; failing that, of the first generic fenced block with
valid JSON; failing that, of the brace-delimited span containing `"files"`;
None for falsy input or when no candidate parses. -/
def extract_spec_claim (text : Option Str) : Option JVal :=
  match text with
  | none => none
  | some t =>
    if t.isEmpty then none
    else
      firstValidJson (fenceBlocks (str "```json") t)
        <|> firstValidJson (fenceBlocks (str "```") t)
        <|> ((bracesFiles t).bind parseJson)

/-- Claim C2 amended: only the first ```json block is considered (a parse
failure there falls through to the next pattern, not to later blocks), then
the first generic fenced block, then the brace span. -/
def extract_spec_amended (text : Option Str) : Option JVal :=
  match text with
  | none => none
  | some t =>
    if t.isEmpty then none
    else
      ((fenceBlocks (str "```json") t).head?.bind parseJson)
        <|> ((fenceBlocks (str "```") t).head?.bind parseJson)
        <|> ((bracesFiles t).bind parseJson)

/-- The opening literal of the hidden memory block. -/
def openMarker : Str := str "<!-- [MEMORY]"

/-- The closing literal of the hidden memory block. -/
def closeMarker : Str := str "[/MEMORY] -->"

/-- The leftmost match of `re.search(r'<!-- \[MEMORY\]([\s\S]*?)\[/MEMORY\] -->', body)`
(src/api/index.py:86): the capture runs from the first viable opening marker
to the first closing marker after it; an opening marker with no closing
marker after it is skipped, as `re.search` resumes at later positions. -/
def findMemBlock : Str → Option Str
  | [] => none
  | c :: t =>
    if openMarker.isPrefixOf (c :: t) then
      match firstSplit closeMarker ((c :: t).drop openMarker.length) with
      | some (a, _) => some a
      | none => findMemBlock t
    else findMemBlock t

/-- The memory dictionary accumulated by `fetch_memory`. -/
structure MemoryData where
  files_read : List Str
  context_summary : Str
deriving DecidableEq

/-- Python `list(set(xs))`: duplicate elimination. CPython's iteration order
over a set is unspecified; the model keeps first occurrences, which is
adequate for the set-level statements of the claims. -/
def pyListSet : List Str → List Str := go []
where
  go (seen : List Str) : List Str → List Str
    | [] => []
    | x :: t => if seen.contains x then go seen t else x :: go (x :: seen) t

/-- Lookup in a decoded JSON object with Python's dict semantics (the last
duplicate key wins); `none` on non-objects or missing keys. -/
def jGet (v : JVal) (key : Str) : Option JVal :=
  match v with
  | JVal.jobj kvs => (kvs.filter (fun kv => kv.1 == key)).getLast?.map (fun kv => kv.2)
  | _ => none

/-- The strings of a JSON array of strings (`none` entries dropped; Python
would extend the list with non-string members, which is unreachable from
`format_memory_block` applied to a `MemoryData` and unexercised by claims). -/
def jStrings (v : JVal) : List Str :=
  match v with
  | JVal.jarr xs => xs.filterMap (fun x => match x with | JVal.jstr s => some s | _ => none)
  | _ => []

/-- One iteration of `fetch_memory`'s comment loop (src/api/index.py:82-95):
comments by the bot (login compared case-insensitively) have their hidden
memory block extracted, stripped and JSON-decoded; `files_read` entries are
appended and `context_summary` is overwritten; decode failures are ignored. -/
def fetchMemoryStep (bot_login : Str) (md : MemoryData) (comment : Str × Str) : MemoryData :=
  if pyLower comment.1 == pyLower bot_login then
    match findMemBlock comment.2 with
    | some captured =>
      match parseJson (pyStrip captured) with
      | some mem =>
        let md1 :=
          match jGet mem (str "files_read") with
          | some v => { md with files_read := md.files_read ++ jStrings v }
          | none => md
        match jGet mem (str "context_summary") with
        | some (JVal.jstr s) => { md1 with context_summary := s }
        | some _ => md1
        | none => md1
      | none => md
    | none => md
  else md

/-- Model of `fetch_memory` (src/api/index.py:73-102) over the issue's comments,
given as (author login, body) pairs: accumulate memory blocks from the
bot's comments, then deduplicate `files_read` via `list(set(...))`. -/
def fetch_memory (comments : List (Str × Str)) (bot_login : Str) : MemoryData :=
  let md := comments.foldl (fetchMemoryStep bot_login) ⟨[], []⟩
  { md with files_read := pyListSet md.files_read }

/-- Model of `format_memory_block` (src/api/index.py:104-106), parameterised by the
dump function standing for `json.dumps`. -/
def format_memory_block (dumps : MemoryData → Str) (data : MemoryData) : Str :=
  str "\n\n" ++ openMarker ++ dumps data ++ closeMarker

/-- Hex digit characters as produced by Python's `\uXXXX` escapes (lowercase). -/
def hexDigitChar (n : Nat) : Char :=
  if n < 10 then Char.ofNat (48 + n) else Char.ofNat (87 + n)

def hex4 (n : Nat) : Str :=
  [hexDigitChar (n / 4096 % 16), hexDigitChar (n / 256 % 16),
   hexDigitChar (n / 16 % 16), hexDigitChar (n % 16)]

/-- Escaping of one character by `json.dumps` with its default
`ensure_ascii=True`: `"`, `\` and the short control escapes, `\uXXXX` for
other control or non-ASCII characters (surrogate pairs above U+FFFF). -/
def pyJsonEscapeChar (c : Char) : Str :=
  if c = '"' then str "\\\""
  else if c = '\\' then str "\\\\"
  else if c = '\n' then str "\\n"
  else if c = '\r' then str "\\r"
  else if c = '\t' then str "\\t"
  else if c = Char.ofNat 8 then str "\\b"
  else if c = Char.ofNat 12 then str "\\f"
  else if c.toNat < 0x20 || 0x7e < c.toNat then
    if c.toNat < 0x10000 then str "\\u" ++ hex4 c.toNat
    else
      str "\\u" ++ hex4 (0xd800 + (c.toNat - 0x10000) / 0x400)
        ++ str "\\u" ++ hex4 (0xdc00 + (c.toNat - 0x10000) % 0x400)
  else [c]

/-- A Python JSON string literal for `s` under `json.dumps` defaults. -/
def pyJsonStr (s : Str) : Str := '"' :: s.flatMap pyJsonEscapeChar ++ ['"']

def joinCommaSpace : List Str → Str
  | [] => []
  | [x] => x
  | x :: y :: t => x ++ str ", " ++ joinCommaSpace (y :: t)

/-- Model of `json.dumps({"files_read": [...], "context_summary": ...})` with default
separators, for the dictionary shape used by the memory block. -/
def json_dumps_mem (m : MemoryData) : Str :=
  str "\x7b\"files_read\": [" ++ joinCommaSpace (m.files_read.map pyJsonStr)
    ++ str "], \"context_summary\": " ++ pyJsonStr m.context_summary ++ str "\x7d"

/-- The `JVal` denotation of a `MemoryData` under `json.loads ∘ json.dumps`. -/
def memJVal (m : MemoryData) : JVal :=
  JVal.jobj [(str "files_read", JVal.jarr (m.files_read.map JVal.jstr)),
             (str "context_summary", JVal.jstr m.context_summary)]

/-- The triggering comment of an `issue_comment` webhook payload. -/
structure CommentInfo where
  login : Str
  utype : Str
  body : Str
  cid : Nat

/-- An existing comment on the issue, as listed by `issue.get_comments()`. -/
structure ThreadComment where
  cid : Nat
  login : Str

/-- The reply-to-bot heuristic of `handle_issue_comment`
(src/api/index.py:632-644): with the issue's comment list fetched (`none`
models the swallowed fetch failure), the triggering comment must be the last
comment and the one before it must be authored by the bot (login compared
exactly, ids compared via `str(...)` equality). -/
def replyToBot (c : CommentInfo) (bot_login : Str) (thread : Option (List ThreadComment)) : Bool :=
  match thread with
  | none => false
  | some comments =>
    match comments.reverse with
    | lastC :: prevC :: _ => lastC.cid == c.cid && prevC.login == bot_login
    | _ => false

/-- The mention/self-filter of `handle_issue_comment` (src/api/index.py:608-646):
`true` exactly when the handler proceeds past `if not mentioned: return`.
Suppression: author login equals the bot login (checked twice in the source),
author type `"Bot"`, or a lowercase memory marker in the lowered or raw body;
then mention by substring `"joe-gemini"` in the lowered body, or the
reply-to-bot heuristic. -/
def should_respond (c : CommentInfo) (bot_login : Str) (thread : Option (List ThreadComment)) : Bool :=
  if c.login == bot_login then false
  else
    let body := pyLower c.body
    if c.login == bot_login then false
    else if c.utype == str "Bot" then false
    else if pyIn (str "<!-- [memory]") body || pyIn (str "<!-- [memory]") c.body then false
    else if pyIn (str "joe-gemini") body then true
    else replyToBot c bot_login thread

/-- The two event handlers the webhook route can invoke. -/
inductive Handler where
  | issueComment
  | pr
deriving DecidableEq

/-- Model of `verify_signature` (src/api/index.py:23-33), parameterised by the
HMAC-SHA256 hex digest function (secret, body ↦ digest). A missing or empty
header or an unset/empty secret gives `False`; then the tuple unpacking
`sha_name, signature = signature.split('=')` raises `ValueError` — modelled
as `Except.error ()` — unless the header has exactly one `'='`; finally the
scheme must be `"sha256"` and the digest must match (`hmac.compare_digest`). -/
def verify_signature (hmacHex : Str → Str → Str) (secret : Option Str)
    (header : Option Str) (body : Str) : Except Unit Bool :=
  match header, secret with
  | none, _ => Except.ok false
  | some _, none => Except.ok false
  | some sig, some sk =>
    if sig.isEmpty || sk.isEmpty then Except.ok false
    else
      match pySplitChar '=' sig with
      | [shaName, sigDigest] =>
        if shaName == str "sha256" then Except.ok (hmacHex sk body == sigDigest)
        else Except.ok false
      | _ => Except.error ()

/-- The event dispatch of the `/webhook` route (src/api/index.py:379-382). -/
def dispatch (event_type action : Option Str) : Option Handler :=
  if event_type == some (str "issue_comment") && action == some (str "created") then
    some Handler.issueComment
  else if event_type == some (str "pull_request")
      && (action == some (str "opened") || action == some (str "synchronize")) then
    some Handler.pr
  else none

/-- The response of the `/webhook` route past a successful verification: 200
with `status: ok` when no handler matches or the invoked handler returns
normally; when the invoked handler raises, the exception escapes the route
before `return jsonify({'status': 'ok'})` is reached (`Except.error`, an
HTTP 500 in Flask). -/
def routeResponse (h : Option Handler) (runHandler : Handler → Except Unit Unit) :
    Except Unit (Nat × Str) :=
  match h with
  | none => Except.ok (200, str "ok")
  | some hd =>
    match runHandler hd with
    | Except.ok _ => Except.ok (200, str "ok")
    | Except.error e => Except.error e

/-- The `/webhook` route (src/api/index.py:371-384): the handler invoked (if
any) together with the HTTP response — 401 with an `error` body on a failed
verification, otherwise the matched handler (whose outcome `runHandler`
models, since the route calls it synchronously) runs before the 200
`status: ok` reply; an exception escaping `verify_signature` or the invoked
handler escapes the route (`Except.error`, an HTTP 500 in Flask). -/
def webhook (hmacHex : Str → Str → Str) (secret header : Option Str) (body : Str)
    (event_type action : Option Str) (runHandler : Handler → Except Unit Unit) :
    Option Handler × Except Unit (Nat × Str) :=
  match verify_signature hmacHex secret header body with
  | Except.error e => (none, Except.error e)
  | Except.ok false => (none, Except.ok (401, str "Invalid signature"))
  | Except.ok true =>
    match dispatch event_type action with
    | none => (none, Except.ok (200, str "ok"))
    | some hd =>
      match runHandler hd with
      | Except.ok _ => (some hd, Except.ok (200, str "ok"))
      | Except.error e => (some hd, Except.error e)

/-- Claim C6's routing contract on the webhook route, phrased from the
verification outcome: a passing verification dispatches and answers per
`routeResponse`, a failing one yields 401 and no handler, and an exception
escapes with no handler invoked. -/
def webhookSpec (v : Except Unit Bool) (h : Option Handler)
    (runHandler : Handler → Except Unit Unit) :
    Option Handler × Except Unit (Nat × Str) :=
  match v with
  | Except.ok true => (h, routeResponse h runHandler)
  | Except.ok false => (none, Except.ok (401, str "Invalid signature"))
  | Except.error e => (none, Except.error e)

/-- The diff truncation in `handle_pr` (src/api/index.py:429-430). -/
def truncate_pr_diff (diff : Str) : Str :=
  if 60000 < diff.length then diff.take 60000 ++ str "\n...(truncated)..." else diff

/-- Model of `read_file_content` (src/api/index.py:163-170), with the GitHub content
lookup abstracted to a partial map (`none` models the swallowed exception):
the decoded content is truncated by `[:5000]`. -/
def read_file_content (getContents : Str → Option Str) (file_path : Str) : Option Str :=
  (getContents file_path).map (fun c => c.take 5000)

/-- The selection of newly requested files in `handle_pr`/`handle_issue_comment`
(src/api/index.py:453, 684): files not already read, capped by `[:5]`. -/
def files_to_read (needed already : List Str) : List Str :=
  (needed.filter (fun f => !(already.contains f))).take 5

/-- A repository directory entry as returned by `repo.get_contents`. -/
inductive FsItem where
  | dir (name : Str) (children : List FsItem)
  | file (name : Str)

def fsName : FsItem → Str
  | FsItem.dir n _ => n
  | FsItem.file n => n

def fsIsDir : FsItem → Bool
  | FsItem.dir _ _ => true
  | FsItem.file _ => false

/-- An item is hidden when its name starts with a dot. -/
def fsHidden (it : FsItem) : Bool :=
  match fsName it with
  | '.' :: _ => true
  | _ => false

/-- List-lexicographic order on `Str` via `Char` codepoints (Python's string
comparison used by `sorted`). -/
def strLe (a b : Str) : Bool :=
  match a, b with
  | [], _ => true
  | _ :: _, [] => false
  | x :: xs, y :: ys => if x = y then strLe xs ys else decide (x < y)

/-- The key order of `sorted(contents, key=lambda x: (x.type != 'dir', x.name))`:
directories first, then by name. -/
def fsItemLe (a b : FsItem) : Bool :=
  if fsIsDir a == fsIsDir b then strLe (fsName a) (fsName b)
  else fsIsDir a

/-- Stable insertion into a sorted list, modelling Python's stable `sorted`. -/
def insertSorted (x : FsItem) : List FsItem → List FsItem
  | [] => [x]
  | y :: t => if fsItemLe x y && !(fsItemLe y x) then x :: y :: t else y :: insertSorted x t

def sortItems (l : List FsItem) : List FsItem := l.foldr insertSorted []

/-- The entries actually rendered for one directory by `get_repo_structure`
(src/api/index.py:117-121): the sorted listing capped by `items[:30]`, with
hidden entries skipped by the `continue`. -/
def shownItems (items : List FsItem) : List FsItem :=
  ((sortItems items).take 30).filter (fun it => !(fsHidden it))

/-- Model of `get_repo_structure` (src/api/index.py:108-134) over a modelled directory
listing, recursing on the remaining depth budget (the source's
`current_depth > max_depth` guard makes its recursion depth-bounded; `fuel`
is that bound made structural, with `fuel = max_depth + 1` at the root). -/
def get_repo_structure_go (fuel : Nat) (items : List FsItem) (max_depth current_depth : Nat) : Str :=
  match fuel with
  | 0 => []
  | fuel + 1 =>
    if max_depth < current_depth then []
    else
      (shownItems items).foldl
        (fun acc it =>
          let line := (List.replicate current_depth (str "  ")).flatten
            ++ (if fsIsDir it then str "📁 " else str "📄 ") ++ fsName it ++ str "\n"
          acc ++ line ++
            match it with
            | FsItem.dir _ children =>
              if current_depth < max_depth then
                get_repo_structure_go fuel children max_depth (current_depth + 1)
              else []
            | FsItem.file _ => [])
        []

def get_repo_structure (items : List FsItem) (max_depth : Nat) : Str :=
  get_repo_structure_go (max_depth + 1) items max_depth 0

/-- A minimal deterministic model of the GitHub repository state seen by
`commit_changes_via_api`: branches point at commit shas, shas resolve to file
trees (path ↦ content), and pull requests are (head, base) pairs. Transient
network failures are not modelled; operations fail exactly on the API's
semantic error conditions (missing ref, existing ref, missing/existing path). -/
structure GHState where
  default_branch : Str
  branches : List (Str × Nat)
  trees : List (Nat × List (Str × Str))
  pulls : List (Str × Str)
  nextSha : Nat

/-- First-match association lookup. -/
def lookupA {α : Type} (l : List (Str × α)) (k : Str) : Option α :=
  (l.find? (fun kv => kv.1 == k)).map (fun kv => kv.2)

def lookupSha (l : List (Nat × List (Str × Str))) (k : Nat) : Option (List (Str × Str)) :=
  (l.find? (fun kv => kv.1 == k)).map (fun kv => kv.2)

/-- Replace the value at a key (first occurrence). -/
def setA {α : Type} (l : List (Str × α)) (k : Str) (v : α) : List (Str × α) :=
  match l with
  | [] => []
  | kv :: t => if kv.1 == k then (k, v) :: t else kv :: setA t k v

/-- Model of `repo.get_branch(repo.default_branch)`: the default branch's head sha. -/
def gh_get_branch (s : GHState) : Option Nat := lookupA s.branches s.default_branch

/-- Model of `repo.create_git_ref(ref, sha)`: fails (422) if the ref exists or the
sha is unknown; otherwise records the new branch at `sha`. -/
def gh_create_git_ref (s : GHState) (branch : Str) (sha : Nat) : Option GHState :=
  if (lookupA s.branches branch).isSome then none
  else if (lookupSha s.trees sha).isNone then none
  else some { s with branches := s.branches ++ [(branch, sha)] }

/-- The file tree at a branch's head. -/
def branchTree (s : GHState) (branch : Str) : Option (List (Str × Str)) :=
  (lookupA s.branches branch).bind (lookupSha s.trees)

/-- Model of `repo.get_contents(path, ref=branch)`: fails if the path is absent. -/
def gh_get_contents (s : GHState) (branch path : Str) : Option Str :=
  (branchTree s branch).bind (fun t => lookupA t path)

/-- Record a new commit with tree `t` and move `branch` to it. -/
def commitTree (s : GHState) (branch : Str) (t : List (Str × Str)) : GHState :=
  { s with trees := s.trees ++ [(s.nextSha, t)],
           branches := setA s.branches branch s.nextSha,
           nextSha := s.nextSha + 1 }

/-- Model of `repo.update_file`: fails unless the path already exists on the branch. -/
def gh_update_file (s : GHState) (branch path content : Str) : Option GHState :=
  match branchTree s branch with
  | none => none
  | some t =>
    if (lookupA t path).isSome then some (commitTree s branch (setA t path content))
    else none

/-- Model of `repo.create_file`: fails (422) if the path already exists on the branch. -/
def gh_create_file (s : GHState) (branch path content : Str) : Option GHState :=
  match branchTree s branch with
  | none => none
  | some t =>
    if (lookupA t path).isSome then none
    else some (commitTree s branch (t ++ [(path, content)]))

/-- Model of `repo.create_pull(head, base)`: fails if the head branch is missing. -/
def gh_create_pull (s : GHState) (head base : Str) : Option GHState :=
  if (lookupA s.branches head).isSome then
    some { s with pulls := s.pulls ++ [(head, base)] }
  else none

/-- The per-file loop of `commit_changes_via_api` (src/api/index.py:210-215):
for each entry, try `get_contents` then `update_file`; on failure of either,
fall back to `create_file`; a `create_file` failure reaches the outer
`except` and the function returns `False` with the mutations so far kept. -/
def commitFilesGo (branch : Str) : GHState → List (Str × Str) → Bool × GHState
  | s, [] => (true, s)
  | s, (path, content) :: rest =>
    match (gh_get_contents s branch path).bind (fun _ => gh_update_file s branch path content) with
    | some s2 => commitFilesGo branch s2 rest
    | none =>
      match gh_create_file s branch path content with
      | some s2 => commitFilesGo branch s2 rest
      | none => (false, s)

/-- Model of `commit_changes_via_api` (src/api/index.py:206-219): look up the default
branch head, create the new ref there, then commit every entry; any failure
reaching the outer `except` returns `False`. The `commit_message` does not
affect the modelled observables but is kept for signature fidelity. -/
def commit_changes_via_api (s : GHState) (branch_name : Str)
    (file_changes : List (Str × Str)) (commit_message : Str) : Bool × GHState :=
  match gh_get_branch s with
  | none => (false, s)
  | some sha =>
    match gh_create_git_ref s branch_name sha with
    | none => (false, s)
    | some s1 => commitFilesGo branch_name s1 file_changes

/-- Claim C7's description of one file write: update the file if it already
exists on the branch, create it otherwise. -/
def upsert_file_spec (s : GHState) (branch path content : Str) : GHState :=
  match branchTree s branch with
  | none => s
  | some t =>
    if (lookupA t path).isSome then commitTree s branch (setA t path content)
    else commitTree s branch (t ++ [(path, content)])

/-- Claim C7 as stated: when branch creation succeeds (default head resolves
and the branch is new) every entry is committed by update-or-create and the
call returns `True`; when branch creation fails it returns `False`. -/
def commit_changes_spec (s : GHState) (branch_name : Str)
    (file_changes : List (Str × Str)) (commit_message : Str) : Bool × GHState :=
  match lookupA s.branches s.default_branch with
  | none => (false, s)
  | some sha =>
    if (lookupA s.branches branch_name).isSome then (false, s)
    else if (lookupSha s.trees sha).isNone then (false, s)
    else
      (true, file_changes.foldl
        (fun st pc => upsert_file_spec st branch_name pc.1 pc.2)
        { s with branches := s.branches ++ [(branch_name, sha)] })

/-- The code-change step of `handle_issue_comment` (src/api/index.py:714-723):
if `commit_changes_via_api` returns `True`, open a pull request from the new
branch into the default branch (a `create_pull` failure is only logged). -/
def handle_comment_code_changes (s : GHState) (branch : Str)
    (file_changes : List (Str × Str)) (msg : Str) : GHState :=
  match commit_changes_via_api s branch file_changes msg with
  | (true, s1) =>
    match gh_create_pull s1 branch s1.default_branch with
    | some s2 => s2
    | none => s1
  | (false, s1) => s1

/-- Claim C7's caller contract: on success a pull request from the new
branch into the default branch is opened. -/
def handle_comment_code_changes_spec (s : GHState) (branch : Str)
    (file_changes : List (Str × Str)) (msg : Str) : GHState :=
  match commit_changes_spec s branch file_changes msg with
  | (true, s1) => { s1 with pulls := s1.pulls ++ [(branch, s1.default_branch)] }
  | (false, s1) => s1

/-- The error comment posted by `handle_pr`'s exception handler
(src/api/index.py:594). -/
def bot_error_comment (err_msg : Str) : Str :=
  str "⚠️ **Bot Error**: Something went wrong.\n\n```\n" ++ err_msg ++ str "\n```"

/-- The exception skeleton of `handle_pr` (src/api/index.py:386-596): after
the pure own-PR author check, the whole body runs inside `try`; `body` is its
outcome, with an error carrying the traceback text. The `except` posts a Bot
Error comment when the `pr` local was bound and the post itself succeeds,
inside a `try/except: pass`. The result is the list of comments posted by the
exception path (`Except.error` would model an escaping exception). -/
def handle_pr_errors (pr_author bot_login : Str) (body : Except Str (List Str))
    (pr_bound post_ok : Bool) : Except Unit (List Str) :=
  if pr_author == bot_login then Except.ok []
  else
    match body with
    | Except.ok posts => Except.ok posts
    | Except.error err_msg =>
      if pr_bound && post_ok then Except.ok [bot_error_comment err_msg]
      else Except.ok []

/-- The exception skeleton of `handle_issue_comment` (src/api/index.py:598-729):
the setup (`get_github_client`, the `payload['repository']`/`['comment']`/
`['issue']` accesses, `repo.get_repo`) runs before the `try` block, so its
exceptions escape the handler (`setup`); the mention/self-filter then either
returns or the body runs inside `try`, whose `except` only prints. -/
def handle_issue_comment_errors (has_installation : Bool) (setup : Except Unit Unit)
    (filter_pass : Bool) (body : Except Unit (List Str)) : Except Unit (List Str) :=
  if !has_installation then Except.ok []
  else
    match setup with
    | Except.error e => Except.error e
    | Except.ok _ =>
      if !filter_pass then Except.ok []
      else
        match body with
        | Except.ok posts => Except.ok posts
        | Except.error _ => Except.ok []

def exceptIsOk {ε α : Type} : Except ε α → Bool
  | Except.ok _ => true
  | Except.error _ => false

/-- The context-expansion read loop shared by src/api/index.py:457-462,
src/api/index.py:690-695 and src/autonomous_bot.py:395-400: the file paths
actually passed to `read_file_content`, i.e. those surviving the
`".." in file_path or file_path.startswith("/")` skip. -/
def expansion_read_paths (files : List Str) : List Str :=
  files.filter (fun p => !(pyIn (str "..") p || (str "/").isPrefixOf p))

/-- The read performed by the hourly `cron_job` (src/api/index.py:310-316):
when the model-requested list is non-empty (Python truthiness), its first
path is passed to `read_file_content` with no `..`/leading-`/` check. -/
def cron_target_paths (initial_files : List Str) : List Str :=
  match initial_files with
  | [] => []
  | p :: _ => [p]

/-- The `'start'`/`'end'` pair recorded for one hunk header; `end` is an
integer since `start + count - 1` can be negative in Python (count 0). -/
structure DiffRange where
  start : Nat
  endL : Int
deriving DecidableEq

/-- One record of `parse_diff_files`: a changed path with its hunk ranges. -/
structure DiffFile where
  path : Str
  lines : List DiffRange
deriving DecidableEq

/-- The leftmost match of `re.search(r'\+(\d+)(?:,(\d+))?', line)`: the first
`+` directly followed by digits, its digit run, and the optional `,count`. -/
def findPlusNum : Str → Option (Nat × Option Nat)
  | [] => none
  | c :: t =>
    match t with
    | [] => none
    | d :: t2 =>
      if c = '+' && d.isDigit then
        let ds := (d :: t2).takeWhile Char.isDigit
        let rest := (d :: t2).dropWhile Char.isDigit
        let cnt : Option Nat :=
          match rest with
          | ',' :: r2 =>
            match r2.takeWhile Char.isDigit with
            | [] => none
            | cs => some (cs.foldl (fun n ch => n * 10 + (ch.toNat - 48)) 0)
          | _ => none
        some (ds.foldl (fun n ch => n * 10 + (ch.toNat - 48)) 0, cnt)
      else findPlusNum (d :: t2)

/-- The range recorded for a hunk header with new-side start and count
(count defaulting to 1): `{'start': start, 'end': start + count - 1}`. -/
def hunkRange (start : Nat) (cnt : Option Nat) : DiffRange :=
  ⟨start, (start : Int) + (cnt.getD 1 : Nat) - 1⟩

/-- The pending record flushed when a new `+++ b/` line or the end of input
is reached (src/api/index.py:145-146, 158-159): Python's truthiness of
`current_file` drops a record whose path is empty. -/
def flushDiffFile (cur : Option Str) (lines : List DiffRange) : List DiffFile :=
  match cur with
  | some p => if p.isEmpty then [] else [⟨p, lines⟩]
  | none => []

/-- The line loop of `parse_diff_files` (src/api/index.py:142-159) in
accumulator form: `files` holds the emitted records, `cur`/`lines` the
current file (None before the first `+++ b/` line) and its hunk ranges. -/
def parseDiffGo : List Str → List DiffFile → Option Str → List DiffRange → List DiffFile
  | [], files, cur, lines => files ++ flushDiffFile cur lines
  | line :: rest, files, cur, lines =>
    if (str "+++ b/").isPrefixOf line then
      parseDiffGo rest (files ++ flushDiffFile cur lines) (some (line.drop 6)) []
    else if (str "@@").isPrefixOf line && !(cur.getD []).isEmpty then
      match findPlusNum line with
      | some (st, cnt) => parseDiffGo rest files cur (lines ++ [hunkRange st cnt])
      | none => parseDiffGo rest files cur lines
    else parseDiffGo rest files cur lines

/-- Model of `parse_diff_files` (src/api/index.py:136-161). -/
def parse_diff_files (diff_text : Str) : List DiffFile :=
  parseDiffGo (pySplitChar '\n' diff_text) [] none []

/-- Whether a diff line introduces a new file record. -/
def isFileLine (line : Str) : Bool := (str "+++ b/").isPrefixOf line

/-- The range of a hunk header line, per claim C10's description. -/
def specHunkRange (line : Str) : Option DiffRange :=
  if (str "@@").isPrefixOf line then (findPlusNum line).map (fun p => hunkRange p.1 p.2)
  else none

/-- Claim C10 as stated: one record per `+++ b/` line, in order, with the
remainder of the line as path and the ranges of the subsequent hunk headers
up to the next `+++ b/` line; hunk headers before the first `+++ b/` line
are ignored. -/
def parse_diff_spec_go : List Str → List DiffFile
  | [] => []
  | line :: rest =>
    if isFileLine line then
      ⟨line.drop 6, (rest.takeWhile (fun l => !isFileLine l)).filterMap specHunkRange⟩
        :: parse_diff_spec_go rest
    else parse_diff_spec_go rest

def parse_diff_spec (diff_text : Str) : List DiffFile :=
  parse_diff_spec_go (pySplitChar '\n' diff_text)

/-- Claim C10 amended: only `+++ b/` lines with a non-empty remainder
produce a record (an empty remainder is falsy in Python, so such a line
produces nothing and the hunk headers that follow it are dropped). -/
def parse_diff_spec_amended_go : List Str → List DiffFile
  | [] => []
  | line :: rest =>
    if isFileLine line then
      if (line.drop 6).isEmpty then parse_diff_spec_amended_go rest
      else
        ⟨line.drop 6, (rest.takeWhile (fun l => !isFileLine l)).filterMap specHunkRange⟩
          :: parse_diff_spec_amended_go rest
    else parse_diff_spec_amended_go rest

def parse_diff_spec_amended (diff_text : Str) : List DiffFile :=
  parse_diff_spec_amended_go (pySplitChar '\n' diff_text)

theorem isPrefixOf_append_self (p r : Str) : p.isPrefixOf (p ++ r) = true := by
  induction p with
  | nil => cases r <;> rfl
  | cons c t ih => simp [List.isPrefixOf, ih]

theorem isPrefixOf_left_of_le (p y z : Str) (h : p.isPrefixOf (y ++ z) = true)
    (hl : p.length ≤ y.length) : p.isPrefixOf y = true := by
  induction p generalizing y with
  | nil => cases y <;> rfl
  | cons c t ih =>
    cases y with
    | nil => simp at hl
    | cons b ys =>
      simp only [List.cons_append, List.isPrefixOf, Bool.and_eq_true] at h ⊢
      exact ⟨h.1, ih ys h.2 (by simpa using hl)⟩

theorem isPrefixOf_drop_of_ge (p y z : Str) (h : p.isPrefixOf (y ++ z) = true)
    (hl : y.length ≤ p.length) : (p.drop y.length).isPrefixOf z = true := by
  induction y generalizing p with
  | nil => simpa using h
  | cons b ys ih =>
    cases p with
    | nil => simp at hl
    | cons c t =>
      simp only [List.cons_append, List.isPrefixOf, Bool.and_eq_true] at h
      simpa using ih t h.2 (by simpa using hl)

theorem pyIn_of_isPrefixOf (p l : Str) (h : p.isPrefixOf l = true) : pyIn p l = true := by
  cases l with
  | nil => cases p with
    | nil => rfl
    | cons c t => simp [List.isPrefixOf] at h
  | cons c t => simp [pyIn, h]

theorem pyIn_cons_of_pyIn (p : Str) (c : Char) (t : Str) (h : pyIn p t = true) :
    pyIn p (c :: t) = true := by
  simp [pyIn, h]

theorem isPrefixOf_map (f : Char → Char) (p l : Str) (h : p.isPrefixOf l = true) :
    (p.map f).isPrefixOf (l.map f) = true := by
  induction p generalizing l with
  | nil => cases l <;> rfl
  | cons c t ih =>
    cases l with
    | nil => simp [List.isPrefixOf] at h
    | cons b bs =>
      simp only [List.isPrefixOf, Bool.and_eq_true, beq_iff_eq] at h ⊢
      exact ⟨by rw [h.1], by simpa using ih bs h.2⟩

theorem pyIn_map (f : Char → Char) (p l : Str) (h : pyIn p l = true) :
    pyIn (p.map f) (l.map f) = true := by
  induction l with
  | nil =>
    cases p with
    | nil => rfl
    | cons c t => simp [pyIn] at h
  | cons b bs ih =>
    simp only [pyIn, Bool.or_eq_true] at h
    rcases h with h | h
    · exact pyIn_of_isPrefixOf _ _ (by simpa using isPrefixOf_map f p (b :: bs) h)
    · exact pyIn_cons_of_pyIn _ _ _ (ih h)

theorem pyIn_sandwich (p a b : Str) : pyIn p ((a ++ p) ++ b) = true := by
  induction a with
  | nil =>
    cases p with
    | nil => cases b with
      | nil => rfl
      | cons c t => simp [pyIn, List.isPrefixOf]
    | cons c t =>
      simpa [pyIn] using Or.inl (isPrefixOf_append_self (c :: t) b)
  | cons c t ih =>
    simpa [pyIn] using Or.inr ih

theorem closeMarker_no_period : ∀ k, k < 13 → 0 < k →
    ((closeMarker.drop k).isPrefixOf closeMarker) = false := by decide

theorem closeMarker_length : closeMarker.length = 13 := by decide

theorem closeMarker_not_prefix_cons (c : Char) (t r : Str)
    (h : pyIn closeMarker (c :: t) = false) :
    closeMarker.isPrefixOf ((c :: t) ++ (closeMarker ++ r)) = false := by
  cases hp : closeMarker.isPrefixOf ((c :: t) ++ (closeMarker ++ r)) with
  | false => rfl
  | true =>
    exfalso
    by_cases hl : closeMarker.length ≤ (c :: t).length
    · have := pyIn_of_isPrefixOf _ _
        (isPrefixOf_left_of_le closeMarker (c :: t) (closeMarker ++ r) hp hl)
      rw [h] at this
      exact Bool.false_ne_true this
    · push_neg at hl
      have hd := isPrefixOf_drop_of_ge closeMarker (c :: t) (closeMarker ++ r) hp (Nat.le_of_lt hl)
      have hd2 : ((closeMarker.drop (c :: t).length).isPrefixOf closeMarker) = true := by
        apply isPrefixOf_left_of_le _ _ r hd
        simp only [List.length_drop]
        omega
      have hk : (c :: t).length < 13 := by
        have := closeMarker_length
        omega
      have := closeMarker_no_period (c :: t).length hk (by simp)
      rw [this] at hd2
      exact Bool.false_ne_true hd2

theorem firstSplit_closeMarker (s r : Str) (h : pyIn closeMarker s = false) :
    firstSplit closeMarker (s ++ (closeMarker ++ r)) = some (s, r) := by
  induction s with
  | nil =>
    show firstSplit closeMarker (closeMarker ++ r) = some ([], r)
    rw [show (closeMarker : Str) = '[' :: str "/MEMORY] -->" from rfl]
    show firstSplit ('[' :: str "/MEMORY] -->") ('[' :: (str "/MEMORY] -->" ++ r)) = some ([], r)
    simp only [firstSplit]
    rw [show (('[' :: str "/MEMORY] -->").isPrefixOf ('[' :: (str "/MEMORY] -->" ++ r)))
        = ('[' :: str "/MEMORY] -->").isPrefixOf (('[' :: str "/MEMORY] -->") ++ r) from rfl,
      isPrefixOf_append_self]
    simp [List.drop_append_of_le_length]
  | cons c t ih =>
    have hnt : pyIn closeMarker t = false := by
      simp only [pyIn, Bool.or_eq_false_iff] at h
      exact h.2
    have hnp := closeMarker_not_prefix_cons c t r h
    show firstSplit closeMarker (c :: (t ++ (closeMarker ++ r))) = some (c :: t, r)
    simp only [firstSplit]
    rw [show (c :: (t ++ (closeMarker ++ r)) : Str) = (c :: t) ++ (closeMarker ++ r) from rfl, hnp,
      ih hnt]
    rfl

theorem openMarker_cons_expand : (openMarker : Str) = '<' :: str "!-- [MEMORY]" := rfl

theorem findMemBlock_cons_false (c : Char) (t : Str)
    (h : openMarker.isPrefixOf (c :: t) = false) :
    findMemBlock (c :: t) = findMemBlock t := by
  rw [findMemBlock, h]
  rfl

theorem findMemBlock_at_open (x a b : Str)
    (hsplit : firstSplit closeMarker x = some (a, b)) :
    findMemBlock (openMarker ++ x) = some a := by
  have hpre : openMarker.isPrefixOf (openMarker ++ x) = true := isPrefixOf_append_self _ _
  have hdrop : (openMarker ++ x).drop openMarker.length = x := List.drop_left _ _
  rw [show (openMarker ++ x : Str) = '<' :: (str "!-- [MEMORY]" ++ x) from rfl]
  rw [findMemBlock]
  rw [show (openMarker.isPrefixOf ('<' :: (str "!-- [MEMORY]" ++ x))) = true from hpre]
  rw [show (('<' :: (str "!-- [MEMORY]" ++ x) : Str).drop openMarker.length) = x from hdrop]
  rw [hsplit]
  rfl

theorem findMemBlock_format (s : Str) (h : pyIn closeMarker s = false) :
    findMemBlock (str "\n\n" ++ openMarker ++ s ++ closeMarker) = some s := by
  have hop : ∀ z : Str, openMarker.isPrefixOf ('\n' :: z) = false := by
    intro z
    rw [openMarker_cons_expand]
    simp [List.isPrefixOf]
  have hx : findMemBlock (openMarker ++ (s ++ closeMarker)) = some s := by
    apply findMemBlock_at_open (s ++ closeMarker) s []
    rw [show (s ++ closeMarker : Str) = s ++ (closeMarker ++ []) from by simp]
    exact firstSplit_closeMarker s [] h
  show findMemBlock ('\n' :: ('\n' :: (openMarker ++ (s ++ closeMarker)))) = some s
  rw [findMemBlock_cons_false _ _ (hop _), findMemBlock_cons_false _ _ (hop _)]
  exact hx

theorem jStrings_map_jstr (l : List Str) :
    jStrings (JVal.jarr (l.map JVal.jstr)) = l := by
  induction l with
  | nil => rfl
  | cons x t ih => simpa [jStrings, List.filterMap_cons] using ih

theorem jGet_memJVal_files (m : MemoryData) :
    jGet (memJVal m) (str "files_read") = some (JVal.jarr (m.files_read.map JVal.jstr)) := by
  have hk1 : ((str "files_read" : Str) == str "files_read") = true := by decide
  have hk2 : ((str "context_summary" : Str) == str "files_read") = false := by decide
  simp [jGet, memJVal, List.filter, hk1, hk2]

theorem jGet_memJVal_summary (m : MemoryData) :
    jGet (memJVal m) (str "context_summary") = some (JVal.jstr m.context_summary) := by
  have hk1 : ((str "files_read" : Str) == str "context_summary") = false := by decide
  have hk2 : ((str "context_summary" : Str) == str "context_summary") = true := by decide
  simp [jGet, memJVal, List.filter, hk1, hk2]

/-- C4 (amended): writing a memory dictionary with `format_memory_block` and
reading the comment back through `fetch_memory` recovers `files_read` up to
duplicate elimination and `context_summary` exactly, provided the JSON
serialisation round-trips (`h1`, the documented contract of
`json.dumps`/`json.loads`) and — the amendment — the serialised text does not
contain the closing marker `[/MEMORY] -->`, which the source's non-greedy
regex would otherwise stop at. -/
theorem c4_memory_roundtrip_amended (dumps : MemoryData → Str) (m : MemoryData)
    (bot_login : Str)
    (h1 : parseJson (pyStrip (dumps m)) = some (memJVal m))
    (h2 : pyIn closeMarker (dumps m) = false) :
    fetch_memory [(bot_login, format_memory_block dumps m)] bot_login
      = ⟨pyListSet m.files_read, m.context_summary⟩ := by
  have hguard : (pyLower bot_login == pyLower bot_login) = true := beq_self_eq_true _
  have hstep : fetchMemoryStep bot_login ⟨[], []⟩ (bot_login, format_memory_block dumps m)
      = ⟨m.files_read, m.context_summary⟩ := by
    simp only [fetchMemoryStep, hguard, eq_self_iff_true, if_true, format_memory_block]
    rw [findMemBlock_format (dumps m) h2]
    simp only []
    rw [h1]
    simp [jGet_memJVal_files, jGet_memJVal_summary, jStrings_map_jstr]
  unfold fetch_memory
  simp only [List.foldl_cons, List.foldl_nil, hstep]

theorem fenceBlocksAux_head (openPat : Str) (fuel : Nat) :
    ∀ t : Str, t.length ≤ fuel → (fenceBlocksAux openPat fuel t).head? = fenced openPat t := by
  induction fuel with
  | zero =>
    intro t ht
    cases t with
    | nil => rfl
    | cons c t2 => simp at ht
  | succ fuel ih =>
    intro t ht
    cases t with
    | nil => rfl
    | cons c t2 =>
      rw [fenceBlocksAux, fenced]
      cases hp : openPat.isPrefixOf (c :: t2) with
      | true =>
        cases hsp : firstSplit (str "```") ((c :: t2).drop openPat.length) with
        | none => simp [hsp]
        | some p => simp [hsp]
      | false =>
        simp only [Bool.false_eq_true, if_false]
        exact ih t2 (by simpa using Nat.le_of_succ_le_succ ht)

/-- C2 (amended): `extract_json_from_response` tries only the first ```json
fenced block (a parse failure there falls through to the next pattern, not to
a later ```json block), then the first generic fenced block, then the brace
span containing `"files"`; falsy input and all-candidates-failing give None. -/
theorem c2_extract_json_amended (text : Option Str) :
    extract_json_from_response text = extract_spec_amended text := by
  cases text with
  | none => rfl
  | some t =>
    simp only [extract_json_from_response, extract_spec_amended, fenceBlocks]
    rw [fenceBlocksAux_head (str "```json") t.length t (le_refl _),
      fenceBlocksAux_head (str "```") t.length t (le_refl _)]

/-- C2 counterexample: on a text whose first ```json block has an invalid
body and whose second ```json block holds valid JSON, the code returns None
while the claim as stated requires the second block's value (the generic
fence pattern also fails because its capture starts with the `json` tag, and
the brace pattern requires `"files"`). -/
theorem c2_first_valid_block_counterexample :
    extract_json_from_response (some (str "```json\nbad\n```\n```json\n\x7b\x7d\n```")) = none
    ∧ extract_spec_claim (some (str "```json\nbad\n```\n```json\n\x7b\x7d\n```"))
        = some (JVal.jobj []) :=
  ⟨rfl, rfl⟩

/-- C4 counterexample: for the memory dictionary with `files_read = []` and
`context_summary = "x[/MEMORY] -->y"`, writing with `format_memory_block`
(under the real `json.dumps`, which does not escape any character of the
closing marker) and reading back with `fetch_memory` yields an empty memory:
the non-greedy regex stops at the `[/MEMORY] -->` inside the JSON string, the
truncated capture fails to decode, and `context_summary` is not recovered. -/
theorem c4_memory_roundtrip_counterexample :
    fetch_memory
        [(str "joe-gemini-bot[bot]",
          format_memory_block json_dumps_mem ⟨[], str "x[/MEMORY] -->y"⟩)]
        (str "joe-gemini-bot[bot]")
      = ⟨[], []⟩
    ∧ decide ((fetch_memory
        [(str "joe-gemini-bot[bot]",
          format_memory_block json_dumps_mem ⟨[], str "x[/MEMORY] -->y"⟩)]
        (str "joe-gemini-bot[bot]")).context_summary = str "x[/MEMORY] -->y") = false :=
  ⟨rfl, rfl⟩

/-- C4 witness: the amended round-trip at a concrete memory dictionary under
the concrete `json.dumps` model. -/
theorem c4_memory_roundtrip_amended_witness :
    fetch_memory
        [(str "maintainer",
          format_memory_block json_dumps_mem
            ⟨[str "a.py", str "b.py", str "a.py"], str "checked configs"⟩)]
        (str "maintainer")
      = ⟨pyListSet [str "a.py", str "b.py", str "a.py"], str "checked configs"⟩ :=
  c4_memory_roundtrip_amended json_dumps_mem
    ⟨[str "a.py", str "b.py", str "a.py"], str "checked configs"⟩
    (str "maintainer") (by rfl) (by rfl)

/-- C1: the mention/self-filter of `handle_issue_comment` produces a response
only if the body mentions `joe-gemini` case-insensitively or the comment is
the latest one and the previous comment is the bot's; and never when the
author is the bot itself, the author type is `Bot`, or the body carries a
`<!-- [MEMORY]` marker. -/
theorem c1_mention_self_filter (c : CommentInfo) (bot_login : Str)
    (thread : Option (List ThreadComment))
    (h : should_respond c bot_login thread = true) :
    (pyIn (str "joe-gemini") (pyLower c.body) = true ∨ replyToBot c bot_login thread = true)
      ∧ (c.login == bot_login) = false
      ∧ (c.utype == str "Bot") = false
      ∧ pyIn (str "<!-- [MEMORY]") c.body = false := by
  unfold should_respond at h
  cases hlogin : (c.login == bot_login) with
  | true => rw [hlogin] at h; simp at h
  | false =>
    rw [hlogin] at h
    simp only [Bool.false_eq_true, if_false] at h
    cases htype : (c.utype == str "Bot") with
    | true => rw [htype] at h; simp at h
    | false =>
      rw [htype] at h
      simp only [Bool.false_eq_true, if_false] at h
      cases hmem : (pyIn (str "<!-- [memory]") (pyLower c.body)
          || pyIn (str "<!-- [memory]") c.body) with
      | true => rw [hmem] at h; simp at h
      | false =>
        rw [hmem] at h
        simp only [Bool.false_eq_true, if_false] at h
        have hmarker : pyIn (str "<!-- [MEMORY]") c.body = false := by
          cases hx : pyIn (str "<!-- [MEMORY]") c.body with
          | false => rfl
          | true =>
            exfalso
            have hlow := pyIn_map Char.toLower (str "<!-- [MEMORY]") c.body hx
            rw [show ((str "<!-- [MEMORY]").map Char.toLower : Str)
                = str "<!-- [memory]" from rfl] at hlow
            have : pyIn (str "<!-- [memory]") (pyLower c.body) = true := hlow
            rw [Bool.or_eq_false_iff] at hmem
            rw [hmem.1] at this
            exact Bool.false_ne_true this
        refine ⟨?_, rfl, rfl, hmarker⟩
        cases hjoe : pyIn (str "joe-gemini") (pyLower c.body) with
        | true => exact Or.inl rfl
        | false =>
          rw [hjoe] at h
          simp only [Bool.false_eq_true, if_false] at h
          exact Or.inr h

/-- C1 witness: a human user mentioning joe-gemini passes the filter, and the
filter's guarantees hold there. -/
theorem c1_mention_self_filter_witness :
    (pyIn (str "joe-gemini") (pyLower (str "hey Joe-Gemini, please review")) = true
        ∨ replyToBot ⟨str "alice", str "User", str "hey Joe-Gemini, please review", 7⟩
            (str "joe-gemini-bot[bot]") none = true)
      ∧ ((str "alice" : Str) == str "joe-gemini-bot[bot]") = false
      ∧ ((str "User" : Str) == str "Bot") = false
      ∧ pyIn (str "<!-- [MEMORY]") (str "hey Joe-Gemini, please review") = false :=
  c1_mention_self_filter
    ⟨str "alice", str "User", str "hey Joe-Gemini, please review", 7⟩
    (str "joe-gemini-bot[bot]") none (by rfl)

/-- C3 (amended): once the signature verifies, `handle_issue_comment` is
invoked iff the event is `issue_comment` with action `created`, `handle_pr`
iff the event is `pull_request` with action `opened` or `synchronize`, no
handler otherwise; the response is 200 with status `ok` when no handler
matches or the invoked handler returns normally, while an exception raised by
the invoked handler escapes the route (an HTTP 500 in Flask) instead of the
claimed 200. -/
theorem c3_webhook_dispatch_amended (hmacHex : Str → Str → Str) (secret header : Option Str)
    (body : Str) (event_type action : Option Str) (runHandler : Handler → Except Unit Unit)
    (h : verify_signature hmacHex secret header body = Except.ok true) :
    webhook hmacHex secret header body event_type action runHandler
        = (dispatch event_type action, routeResponse (dispatch event_type action) runHandler)
      ∧ (dispatch event_type action = some Handler.issueComment
          ↔ (event_type == some (str "issue_comment")
              && action == some (str "created")) = true)
      ∧ (dispatch event_type action = some Handler.pr
          ↔ (event_type == some (str "pull_request")
              && (action == some (str "opened") || action == some (str "synchronize"))) = true)
      ∧ (dispatch event_type action = none
          ↔ ((event_type == some (str "issue_comment") && action == some (str "created"))
              || (event_type == some (str "pull_request")
                  && (action == some (str "opened") || action == some (str "synchronize"))))
            = false) := by
  have hexcl : (event_type == some (str "issue_comment")) = true →
      (event_type == some (str "pull_request")) = true → False := by
    intro hA hB
    rw [beq_iff_eq] at hA hB
    rw [hA] at hB
    exact absurd hB (by decide)
  refine ⟨?_, ?_, ?_, ?_⟩
  · unfold webhook routeResponse
    rw [h]
    simp only []
    cases dispatch event_type action with
    | none => rfl
    | some hd =>
      simp only []
      cases runHandler hd with
      | ok u => rfl
      | error e => rfl
  all_goals
    unfold dispatch
  all_goals
    cases h1 : (event_type == some (str "issue_comment") && action == some (str "created")) with
    | true =>
      have h2 : (event_type == some (str "pull_request")
          && (action == some (str "opened") || action == some (str "synchronize"))) = false := by
        cases hB : (event_type == some (str "pull_request")) with
        | false => simp [hB]
        | true =>
          exfalso
          have h1a := h1
          rw [Bool.and_eq_true] at h1a
          exact hexcl h1a.1 hB
      simp [h1, h2]
    | false =>
      cases h2 : (event_type == some (str "pull_request")
          && (action == some (str "opened") || action == some (str "synchronize"))) with
      | true => simp [h1, h2]
      | false => simp [h1, h2]

/-- C3 counterexample: a request whose signature verifies and whose
`issue_comment`/`created` payload dispatches `handle_issue_comment`, but
whose handler raises (as `handle_issue_comment`'s pre-try setup can, per the
C8 counterexample): the route propagates the exception (an HTTP 500) instead
of returning the claimed 200 `ok` response. -/
theorem c3_webhook_dispatch_counterexample :
    webhook (fun _ _ => str "d") (some (str "topsecret")) (some (str "sha256=d"))
        (str "payload") (some (str "issue_comment")) (some (str "created"))
        (fun _ => Except.error ())
      = (some Handler.issueComment, Except.error ()) := rfl

/-- C3 witness: a verifying request with an `issue_comment`/`created` payload
and a normally returning handler dispatches the comment handler with a 200
`ok` response. -/
theorem c3_webhook_dispatch_amended_witness :
    webhook (fun _ _ => str "d") (some (str "topsecret")) (some (str "sha256=d"))
        (str "payload") (some (str "issue_comment")) (some (str "created"))
        (fun _ => Except.ok ())
        = (dispatch (some (str "issue_comment")) (some (str "created")),
           routeResponse (dispatch (some (str "issue_comment")) (some (str "created")))
             (fun _ => Except.ok ()))
      ∧ (dispatch (some (str "issue_comment")) (some (str "created")) = some Handler.issueComment
          ↔ ((some (str "issue_comment") : Option Str) == some (str "issue_comment")
              && (some (str "created") : Option Str) == some (str "created")) = true)
      ∧ (dispatch (some (str "issue_comment")) (some (str "created")) = some Handler.pr
          ↔ ((some (str "issue_comment") : Option Str) == some (str "pull_request")
              && ((some (str "created") : Option Str) == some (str "opened")
                  || (some (str "created") : Option Str) == some (str "synchronize"))) = true)
      ∧ (dispatch (some (str "issue_comment")) (some (str "created")) = none
          ↔ (((some (str "issue_comment") : Option Str) == some (str "issue_comment")
                && (some (str "created") : Option Str) == some (str "created"))
              || ((some (str "issue_comment") : Option Str) == some (str "pull_request")
                  && ((some (str "created") : Option Str) == some (str "opened")
                      || (some (str "created") : Option Str) == some (str "synchronize"))))
            = false) :=
  c3_webhook_dispatch_amended (fun _ _ => str "d") (some (str "topsecret"))
    (some (str "sha256=d")) (str "payload") (some (str "issue_comment"))
    (some (str "created")) (fun _ => Except.ok ()) (by rfl)

theorem pySplitChar_ne_nil (sep : Char) (l : Str) : pySplitChar sep l ≠ [] := by
  cases l with
  | nil => simp [pySplitChar]
  | cons c t =>
    rw [pySplitChar]
    by_cases hc : c = sep
    · simp [hc]
    · simp only [hc, if_false]
      cases hr : pySplitChar sep t with
      | nil => simp
      | cons h r => simp

theorem pySplitChar_no_sep (sep : Char) (l : Str) (h : l.contains sep = false) :
    pySplitChar sep l = [l] := by
  induction l with
  | nil => rfl
  | cons c t ih =>
    rw [List.contains_cons, Bool.or_eq_false_iff] at h
    have hc : ¬(c = sep) := by
      intro he
      rw [he] at h
      simp at h
    rw [pySplitChar]
    simp only [hc, if_false]
    rw [ih h.2]

theorem pySplitChar_single (sep : Char) (l x : Str) (h : pySplitChar sep l = [x]) :
    l = x ∧ x.contains sep = false := by
  induction l generalizing x with
  | nil =>
    rw [pySplitChar] at h
    injection h with h1 h2
    exact ⟨h1, by rw [← h1]; rfl⟩
  | cons c t ih =>
    rw [pySplitChar] at h
    by_cases hc : c = sep
    · simp only [hc, if_true] at h
      injection h with h1 h2
      exact absurd h2 (pySplitChar_ne_nil sep t)
    · simp only [hc, if_false] at h
      cases hr : pySplitChar sep t with
      | nil => exact absurd hr (pySplitChar_ne_nil sep t)
      | cons hh r =>
        rw [hr] at h
        injection h with h1 h2
        obtain ⟨ht, hcont⟩ := ih hh (by rw [hr, h2])
        constructor
        · rw [← h1, ht]
        · rw [← h1, List.contains_cons, Bool.or_eq_false_iff]
          constructor
          · cases hb : (sep == c) with
            | false => rfl
            | true =>
              exfalso
              rw [beq_iff_eq] at hb
              exact hc hb.symm
          · exact hcont

theorem pySplitChar_pair (sep : Char) (l a b : Str) (h : pySplitChar sep l = [a, b]) :
    l = a ++ sep :: b ∧ a.contains sep = false ∧ b.contains sep = false := by
  induction l generalizing a with
  | nil =>
    rw [pySplitChar] at h
    injection h with h1 h2
    simp at h2
  | cons c t ih =>
    rw [pySplitChar] at h
    by_cases hc : c = sep
    · simp only [hc, if_true] at h
      injection h with h1 h2
      obtain ⟨ht, hcont⟩ := pySplitChar_single sep t b h2
      refine ⟨?_, by rw [← h1]; rfl, hcont⟩
      rw [← h1, hc, ht]
      rfl
    · simp only [hc, if_false] at h
      cases hr : pySplitChar sep t with
      | nil => exact absurd hr (pySplitChar_ne_nil sep t)
      | cons hh r =>
        rw [hr] at h
        injection h with h1 h2
        obtain ⟨ht, hca, hcb⟩ := ih hh (by rw [hr, h2])
        refine ⟨?_, ?_, hcb⟩
        · rw [← h1]
          show c :: t = (c :: hh) ++ sep :: b
          rw [ht]
          rfl
        · rw [← h1, List.contains_cons, Bool.or_eq_false_iff]
          constructor
          · cases hb : (sep == c) with
            | false => rfl
            | true =>
              exfalso
              rw [beq_iff_eq] at hb
              exact hc hb.symm
          · exact hca

theorem pySplitChar_of_pair (sep : Char) (a b : Str)
    (ha : a.contains sep = false) (hb : b.contains sep = false) :
    pySplitChar sep (a ++ sep :: b) = [a, b] := by
  induction a with
  | nil =>
    show pySplitChar sep (sep :: b) = [[], b]
    rw [pySplitChar]
    simp only [if_true, if_pos rfl]
    rw [pySplitChar_no_sep sep b hb]
  | cons c a2 ih =>
    rw [List.contains_cons, Bool.or_eq_false_iff] at ha
    have hc : ¬(c = sep) := by
      intro he
      rw [he] at ha
      simp at ha
    show pySplitChar sep (c :: (a2 ++ sep :: b)) = [c :: a2, b]
    rw [pySplitChar]
    simp only [hc, if_false]
    rw [ih ha.2]

/-- C6 (amended): `verify_signature` returns `True` exactly when the header
is present, the secret configured and non-empty, and the header is `sha256=`
followed by an `'='`-free digest equal to the HMAC-SHA256 hex digest of the
body under the secret; the route answers 401 with no handler when it returns
`False` — but (the amendment) a present header that does not split on `'='`
into exactly two parts raises `ValueError`, which escapes the route (an HTTP
500 in Flask) rather than producing the claimed 401, again with no handler. -/
theorem c6_verify_signature_amended (hmacHex : Str → Str → Str)
    (secret header : Option Str) (body : Str) (event_type action : Option Str)
    (runHandler : Handler → Except Unit Unit) :
    (verify_signature hmacHex secret header body = Except.ok true
      ↔ ∃ sk d, secret = some sk ∧ sk.isEmpty = false
          ∧ header = some (str "sha256=" ++ d) ∧ d.contains '=' = false
          ∧ hmacHex sk body = d)
    ∧ webhook hmacHex secret header body event_type action runHandler
        = webhookSpec (verify_signature hmacHex secret header body)
            (dispatch event_type action) runHandler := by
  constructor
  · constructor
    · intro h
      unfold verify_signature at h
      cases header with
      | none => simp at h
      | some sig =>
        cases secret with
        | none => simp at h
        | some sk =>
          simp only [] at h
          by_cases hemp : (sig.isEmpty || sk.isEmpty) = true
          · rw [if_pos hemp] at h
            simp at h
          · rw [if_neg hemp] at h
            rw [Bool.or_eq_true, not_or] at hemp
            cases hsp : pySplitChar '=' sig with
            | nil => rw [hsp] at h; simp at h
            | cons p1 r1 =>
              cases r1 with
              | nil => rw [hsp] at h; simp at h
              | cons p2 r2 =>
                cases r2 with
                | nil =>
                  rw [hsp] at h
                  simp only [] at h
                  by_cases hsha : (p1 == str "sha256") = true
                  · rw [if_pos hsha] at h
                    injection h with hv
                    rw [beq_iff_eq] at hsha
                    obtain ⟨hl, hc1, hc2⟩ := pySplitChar_pair '=' sig p1 p2 hsp
                    refine ⟨sk, p2, rfl, ?_, ?_, hc2, ?_⟩
                    · cases hske : sk.isEmpty with
                      | false => rfl
                      | true => exact absurd hske hemp.2
                    · rw [hl, hsha]
                      rfl
                    · rw [beq_iff_eq] at hv
                      exact hv
                  · rw [if_neg hsha] at h
                    simp at h
                | cons p3 r3 => rw [hsp] at h; simp at h
    · rintro ⟨sk, d, hsec, hske, hhdr, hdne, hdig⟩
      rw [hsec, hhdr]
      unfold verify_signature
      simp only []
      have hsig : ((str "sha256=" ++ d : Str).isEmpty || sk.isEmpty) = false := by
        rw [hske]
        rfl
      rw [hsig]
      simp only [Bool.false_eq_true, if_false]
      rw [show (str "sha256=" ++ d : Str) = str "sha256" ++ '=' :: d from rfl]
      rw [pySplitChar_of_pair '=' (str "sha256") d (by decide) hdne]
      simp only []
      rw [show ((str "sha256" : Str) == str "sha256") = true from beq_self_eq_true _]
      simp only [if_true]
      rw [hdig, beq_self_eq_true]
  · unfold webhook webhookSpec routeResponse
    cases verify_signature hmacHex secret header body with
    | error e => rfl
    | ok b =>
      cases b with
      | false => rfl
      | true =>
        simp only []
        cases dispatch event_type action with
        | none => rfl
        | some hd =>
          simp only []
          cases runHandler hd with
          | ok u => rfl
          | error e => rfl

/-- C6 counterexample: with a configured secret and the malformed header
`sha256` (no `'='`), `verify_signature` raises `ValueError` (modelled as
`Except.error`) instead of returning `False`, and the route propagates the
exception (an HTTP 500) instead of the claimed 401. -/
theorem c6_verify_signature_counterexample :
    verify_signature (fun _ _ => str "d") (some (str "topsecret"))
        (some (str "sha256")) (str "payload")
      = Except.error ()
    ∧ webhook (fun _ _ => str "d") (some (str "topsecret")) (some (str "sha256"))
        (str "payload") (some (str "issue_comment")) (some (str "created"))
        (fun _ => Except.ok ())
      = (none, Except.error ()) :=
  ⟨rfl, rfl⟩

/-- C5: the fixed context size caps — the PR diff is truncated to at most
60000 characters plus the `...(truncated)...` marker, each file's content to
at most 5000 characters, at most 5 newly requested files are read per event,
and each directory contributes at most 30 entries, all non-hidden, with the
structure walk stopping beyond the configured maximum depth. -/
theorem c5_context_size_caps :
    (∀ diff : Str, (truncate_pr_diff diff).length ≤ 60000 + (str "\n...(truncated)...").length)
    ∧ (∀ (getContents : Str → Option Str) (file_path : Str),
        ((read_file_content getContents file_path).getD []).length ≤ 5000)
    ∧ (∀ needed already : List Str, (files_to_read needed already).length ≤ 5)
    ∧ (∀ items : List FsItem, (shownItems items).length ≤ 30)
    ∧ (∀ items : List FsItem, (shownItems items).all (fun it => !(fsHidden it)) = true)
    ∧ (∀ (fuel : Nat) (items : List FsItem) (max_depth k : Nat),
        get_repo_structure_go fuel items max_depth (max_depth + 1 + k) = []) := by
  have hmark : (str "\n...(truncated)...").length = 18 := by decide
  refine ⟨?_, ?_, ?_, ?_, ?_, ?_⟩
  · intro diff
    unfold truncate_pr_diff
    by_cases h : 60000 < diff.length
    · rw [if_pos h]
      rw [List.length_append, List.length_take, hmark]
      omega
    · rw [if_neg h]
      omega
  · intro g p
    cases hg : g p with
    | none => simp [read_file_content, hg]
    | some c =>
      rw [read_file_content, hg]
      show (c.take 5000).length ≤ 5000
      rw [List.length_take]
      omega
  · intro needed already
    unfold files_to_read
    rw [List.length_take]
    omega
  · intro items
    unfold shownItems
    calc (((sortItems items).take 30).filter (fun it => !(fsHidden it))).length
        ≤ ((sortItems items).take 30).length := List.length_filter_le _ _
      _ ≤ 30 := by rw [List.length_take]; omega
  · intro items
    unfold shownItems
    rw [List.all_eq_true]
    intro x hx
    rw [List.mem_filter] at hx
    exact hx.2
  · intro fuel items max_depth k
    cases fuel with
    | zero => rfl
    | succ fuel =>
      rw [get_repo_structure_go]
      rw [if_pos (by omega : max_depth < max_depth + 1 + k)]

theorem lookupA_cons {α : Type} (kv : Str × α) (t : List (Str × α)) (k : Str) :
    lookupA (kv :: t) k = if kv.1 == k then some kv.2 else lookupA t k := by
  cases hk : (kv.1 == k) with
  | true => simp [lookupA, List.find?_cons, hk]
  | false => simp [lookupA, List.find?_cons, hk]

theorem lookupSha_cons (kv : Nat × List (Str × Str)) (t : List (Nat × List (Str × Str)))
    (k : Nat) :
    lookupSha (kv :: t) k = if kv.1 == k then some kv.2 else lookupSha t k := by
  cases hk : (kv.1 == k) with
  | true => simp [lookupSha, List.find?_cons, hk]
  | false => simp [lookupSha, List.find?_cons, hk]

theorem lookupA_setA_self {α : Type} (l : List (Str × α)) (k : Str) (v : α)
    (h : (lookupA l k).isSome = true) : lookupA (setA l k v) k = some v := by
  induction l with
  | nil => simp [lookupA] at h
  | cons kv t ih =>
    rw [lookupA_cons] at h
    rw [setA]
    cases hk : (kv.1 == k) with
    | true =>
      rw [if_pos rfl, lookupA_cons]
      simp [beq_self_eq_true]
    | false =>
      rw [hk] at h
      simp only [Bool.false_eq_true, if_false] at h
      rw [if_neg (by simp), lookupA_cons, hk]
      simp only [Bool.false_eq_true, if_false]
      exact ih h

theorem lookupA_append_single_self {α : Type} (l : List (Str × α)) (k : Str) (v : α)
    (h : lookupA l k = none) : lookupA (l ++ [(k, v)]) k = some v := by
  induction l with
  | nil => simp [lookupA, List.find?_cons, beq_self_eq_true]
  | cons kv t ih =>
    rw [lookupA_cons] at h
    cases hk : (kv.1 == k) with
    | true => rw [hk] at h; simp at h
    | false =>
      rw [hk] at h
      simp only [Bool.false_eq_true, if_false] at h
      rw [List.cons_append, lookupA_cons, hk]
      simp only [Bool.false_eq_true, if_false]
      exact ih h

theorem lookupSha_append_single_isSome (l : List (Nat × List (Str × Str))) (n : Nat)
    (t : List (Str × Str)) : (lookupSha (l ++ [(n, t)]) n).isSome = true := by
  induction l with
  | nil => simp [lookupSha, List.find?_cons, beq_self_eq_true]
  | cons kv r ih =>
    rw [List.cons_append, lookupSha_cons]
    cases hk : (kv.1 == n) with
    | true => rfl
    | false =>
      simp only [Bool.false_eq_true, if_false]
      exact ih

theorem branchTree_from_lookups (s : GHState) (b : Str) (sha : Nat)
    (hb : lookupA s.branches b = some sha) :
    branchTree s b = lookupSha s.trees sha := by
  unfold branchTree
  rw [hb]
  rfl

theorem branchTree_commitTree_isSome (s : GHState) (b : Str) (t2 : List (Str × Str))
    (h : (lookupA s.branches b).isSome = true) :
    (branchTree (commitTree s b t2) b).isSome = true := by
  unfold branchTree commitTree
  simp only []
  rw [lookupA_setA_self s.branches b s.nextSha h]
  exact lookupSha_append_single_isSome s.trees s.nextSha t2

theorem branch_key_of_branchTree (s : GHState) (b : Str)
    (h : (branchTree s b).isSome = true) : (lookupA s.branches b).isSome = true := by
  unfold branchTree at h
  cases hl : lookupA s.branches b with
  | none => rw [hl] at h; simp at h
  | some sha => rfl

theorem commitFilesGo_spec (branch : Str) (ch : List (Str × Str)) :
    ∀ s : GHState, (branchTree s branch).isSome = true →
      commitFilesGo branch s ch
        = (true, ch.foldl (fun st pc => upsert_file_spec st branch pc.1 pc.2) s) := by
  induction ch with
  | nil => intro s _; rfl
  | cons pc rest ih =>
    intro s hb
    obtain ⟨t, ht⟩ := Option.isSome_iff_exists.mp hb
    have hbk : (lookupA s.branches branch).isSome = true := branch_key_of_branchTree s branch hb
    rw [commitFilesGo]
    cases hlp : lookupA t pc.1 with
    | some c0 =>
      have hstep : (gh_get_contents s branch pc.1).bind
          (fun _ => gh_update_file s branch pc.1 pc.2)
          = some (commitTree s branch (setA t pc.1 pc.2)) := by
        unfold gh_get_contents gh_update_file
        rw [ht]
        simp [hlp]
      rw [hstep]
      have hup : upsert_file_spec s branch pc.1 pc.2
          = commitTree s branch (setA t pc.1 pc.2) := by
        unfold upsert_file_spec
        rw [ht]
        simp [hlp]
      rw [List.foldl_cons, hup]
      exact ih (commitTree s branch (setA t pc.1 pc.2))
        (branchTree_commitTree_isSome s branch _ hbk)
    | none =>
      have hstep : (gh_get_contents s branch pc.1).bind
          (fun _ => gh_update_file s branch pc.1 pc.2) = none := by
        unfold gh_get_contents
        rw [ht]
        simp [hlp]
      have hcr : gh_create_file s branch pc.1 pc.2
          = some (commitTree s branch (t ++ [(pc.1, pc.2)])) := by
        unfold gh_create_file
        rw [ht]
        simp [hlp]
      rw [hstep, hcr]
      have hup : upsert_file_spec s branch pc.1 pc.2
          = commitTree s branch (t ++ [(pc.1, pc.2)]) := by
        unfold upsert_file_spec
        rw [ht]
        simp [hlp]
      rw [List.foldl_cons, hup]
      exact ih (commitTree s branch (t ++ [(pc.1, pc.2)]))
        (branchTree_commitTree_isSome s branch _ hbk)

theorem upsert_preserves (s : GHState) (branch p c : Str)
    (h : (lookupA s.branches branch).isSome = true) :
    (lookupA (upsert_file_spec s branch p c).branches branch).isSome = true
      ∧ (upsert_file_spec s branch p c).default_branch = s.default_branch
      ∧ (upsert_file_spec s branch p c).pulls = s.pulls := by
  unfold upsert_file_spec
  cases ht : branchTree s branch with
  | none => exact ⟨h, rfl, rfl⟩
  | some t =>
    simp only []
    by_cases hlp : (lookupA t p).isSome = true
    · rw [if_pos hlp]
      refine ⟨?_, rfl, rfl⟩
      unfold commitTree
      simp only []
      rw [lookupA_setA_self s.branches branch s.nextSha h]
      rfl
    · rw [if_neg hlp]
      refine ⟨?_, rfl, rfl⟩
      unfold commitTree
      simp only []
      rw [lookupA_setA_self s.branches branch s.nextSha h]
      rfl

theorem foldl_upsert_preserves (branch : Str) (ch : List (Str × Str)) :
    ∀ s : GHState, (lookupA s.branches branch).isSome = true →
      (lookupA (ch.foldl (fun st pc => upsert_file_spec st branch pc.1 pc.2) s).branches
          branch).isSome = true
      ∧ (ch.foldl (fun st pc => upsert_file_spec st branch pc.1 pc.2) s).default_branch
          = s.default_branch
      ∧ (ch.foldl (fun st pc => upsert_file_spec st branch pc.1 pc.2) s).pulls = s.pulls := by
  induction ch with
  | nil => intro s h; exact ⟨h, rfl, rfl⟩
  | cons pc rest ih =>
    intro s h
    obtain ⟨h1, h2, h3⟩ := upsert_preserves s branch pc.1 pc.2 h
    obtain ⟨g1, g2, g3⟩ := ih (upsert_file_spec s branch pc.1 pc.2) h1
    rw [List.foldl_cons]
    exact ⟨g1, by rw [g2, h2], by rw [g3, h3]⟩

/-- C7: `commit_changes_via_api` refines claim C7's description — when branch
creation succeeds (the default branch's head resolves and the branch name is
fresh) it creates the branch at the default head, commits every entry by
update-if-present / create-otherwise and returns `True`; when branch creation
fails it returns `False`; and in `handle_issue_comment`, a `True` return is
followed by a pull request from the new branch into the default branch. In
this deterministic model of the GitHub API, file writes themselves cannot
fail after a successful branch creation. -/
theorem c7_commit_changes_refines_spec (s : GHState) (branch_name : Str)
    (file_changes : List (Str × Str)) (commit_message : Str) :
    commit_changes_via_api s branch_name file_changes commit_message
        = commit_changes_spec s branch_name file_changes commit_message
      ∧ handle_comment_code_changes s branch_name file_changes commit_message
        = handle_comment_code_changes_spec s branch_name file_changes commit_message := by
  have hmain : commit_changes_via_api s branch_name file_changes commit_message
      = commit_changes_spec s branch_name file_changes commit_message := by
    unfold commit_changes_via_api commit_changes_spec gh_get_branch gh_create_git_ref
    cases hd : lookupA s.branches s.default_branch with
    | none => rfl
    | some sha =>
      simp only []
      by_cases hbe : (lookupA s.branches branch_name).isSome = true
      · rw [if_pos hbe, if_pos hbe]
      · rw [if_neg hbe, if_neg hbe]
        by_cases htr : (lookupSha s.trees sha).isNone = true
        · rw [if_pos htr, if_pos htr]
        · rw [if_neg htr, if_neg htr]
          apply commitFilesGo_spec
          show (branchTree { s with branches := s.branches ++ [(branch_name, sha)] }
            branch_name).isSome = true
          unfold branchTree
          simp only []
          rw [lookupA_append_single_self s.branches branch_name sha
            (Option.not_isSome_iff_eq_none.mp hbe)]
          show (lookupSha s.trees sha).isSome = true
          cases ho : lookupSha s.trees sha with
          | none => exact absurd (by rw [ho]; rfl) htr
          | some t => rfl
  refine ⟨hmain, ?_⟩
  unfold handle_comment_code_changes handle_comment_code_changes_spec
  rw [hmain]
  unfold commit_changes_spec
  cases hd : lookupA s.branches s.default_branch with
  | none => rfl
  | some sha =>
    simp only []
    by_cases hbe : (lookupA s.branches branch_name).isSome = true
    · rw [if_pos hbe]
    · rw [if_neg hbe]
      by_cases htr : (lookupSha s.trees sha).isNone = true
      · rw [if_pos htr]
      · rw [if_neg htr]
        simp only []
        have hcreated : (lookupA ({ s with branches := s.branches ++ [(branch_name, sha)]
            } : GHState).branches branch_name).isSome = true := by
          simp only []
          rw [lookupA_append_single_self s.branches branch_name sha
            (Option.not_isSome_iff_eq_none.mp hbe)]
          rfl
        obtain ⟨g1, g2, g3⟩ := foldl_upsert_preserves branch_name file_changes
          { s with branches := s.branches ++ [(branch_name, sha)] } hcreated
        unfold gh_create_pull
        rw [if_pos g1]

/-- C8 (amended): exceptions raised inside `handle_pr`'s try block never
propagate, and (for a bound PR with a succeeding post) are reported with a
Bot Error comment containing the traceback; exceptions inside
`handle_issue_comment`'s try block never propagate but are only logged —
however exceptions in `handle_issue_comment`'s setup (client creation and
payload field access, which run before its try block) do escape the handler. -/
theorem c8_error_handling_amended :
    (∀ (pr_author bot_login : Str) (body : Except Str (List Str)) (pr_bound post_ok : Bool),
        exceptIsOk (handle_pr_errors pr_author bot_login body pr_bound post_ok) = true)
    ∧ (∀ (pr_author bot_login err : Str),
        handle_pr_errors pr_author bot_login (Except.error err) true true
          = if pr_author == bot_login then Except.ok [] else Except.ok [bot_error_comment err])
    ∧ (∀ err : Str, pyIn err (bot_error_comment err) = true)
    ∧ (∀ (has_installation filter_pass : Bool) (body : Except Unit (List Str)),
        exceptIsOk (handle_issue_comment_errors has_installation (Except.ok ())
          filter_pass body) = true) := by
  refine ⟨?_, ?_, ?_, ?_⟩
  · intro a b body prB pOk
    unfold handle_pr_errors
    by_cases hab : (a == b) = true
    · rw [if_pos hab]
      rfl
    · rw [if_neg hab]
      cases body with
      | ok posts => rfl
      | error err =>
        cases hp : (prB && pOk) with
        | true => rfl
        | false => rfl
  · intro a b err
    unfold handle_pr_errors
    by_cases hab : (a == b) = true
    · rw [if_pos hab, if_pos hab]
    · rw [if_neg hab, if_neg hab]
      rfl
  · intro err
    unfold bot_error_comment
    exact pyIn_sandwich err (str "⚠️ **Bot Error**: Something went wrong.\n\n```\n")
      (str "\n```")
  · intro hasI fp body
    unfold handle_issue_comment_errors
    cases hasI with
    | false => rfl
    | true =>
      simp only [Bool.not_true, Bool.false_eq_true, if_false]
      cases fp with
      | false => rfl
      | true =>
        simp only [Bool.not_true, Bool.false_eq_true, if_false]
        cases body with
        | ok posts => rfl
        | error e => rfl

/-- C8 counterexample: a failure in `handle_issue_comment`'s setup phase
(before its try block — e.g. `get_github_client` raising) escapes the
handler, contradicting the claim that exceptions never propagate out of it. -/
theorem c8_issue_comment_propagates_counterexample :
    handle_issue_comment_errors true (Except.error ()) true (Except.ok [])
      = Except.error () := rfl

/-- C9 (amended): the three guarded context-expansion loops skip every
requested path containing `..` or starting with `/`, so every path those
loops pass to `read_file_content` is free of both; the hourly cron job,
however, passes the first model-requested path to `read_file_content`
unchecked. -/
theorem c9_path_filter_amended :
    (∀ files : List Str,
        (expansion_read_paths files).all
          (fun p => !(pyIn (str "..") p) && !((str "/").isPrefixOf p)) = true)
    ∧ (∀ (p : Str) (rest : List Str), cron_target_paths (p :: rest) = [p])
    ∧ cron_target_paths [] = [] := by
  refine ⟨?_, fun p rest => rfl, rfl⟩
  intro files
  unfold expansion_read_paths
  rw [List.all_eq_true]
  intro p hp
  rw [List.mem_filter] at hp
  have h2 := hp.2
  rw [Bool.not_eq_true', Bool.or_eq_false_iff] at h2
  rw [h2.1, h2.2]
  rfl

/-- C9 counterexample: `cron_job` (src/api/index.py:310-316) passes the first
model-requested path — here one containing `..` — straight to
`read_file_content` with no check, so the claim's universal "never passed to
read_file_content" fails outside the three guarded loops. -/
theorem c9_path_filter_counterexample :
    cron_target_paths [str "../secret"] = [str "../secret"]
    ∧ pyIn (str "..") (str "../secret") = true :=
  ⟨rfl, rfl⟩

theorem flush_falsy (cur : Option Str) (x : List DiffRange)
    (h : (cur.getD []).isEmpty = true) : flushDiffFile cur x = [] := by
  cases cur with
  | none => rfl
  | some p =>
    cases p with
    | nil => rfl
    | cons c t => simp at h

theorem parseDiffGo_spec (ls : List Str) :
    ∀ (files : List DiffFile) (cur : Option Str) (lines : List DiffRange),
      parseDiffGo ls files cur lines
        = files
            ++ flushDiffFile cur
                (lines ++ (ls.takeWhile (fun l => !isFileLine l)).filterMap specHunkRange)
            ++ parse_diff_spec_amended_go ls := by
  induction ls with
  | nil =>
    intro files cur lines
    rw [parseDiffGo, parse_diff_spec_amended_go]
    simp
  | cons line rest ih =>
    intro files cur lines
    rw [parseDiffGo]
    cases hfl : isFileLine line with
    | true =>
      rw [show ((str "+++ b/").isPrefixOf line) = true from hfl]
      simp only [if_true]
      rw [ih (files ++ flushDiffFile cur lines) (some (line.drop 6)) []]
      have htw : (line :: rest).takeWhile (fun l => !isFileLine l) = [] := by
        rw [List.takeWhile_cons]
        simp [hfl]
      rw [parse_diff_spec_amended_go]
      rw [hfl]
      simp only [if_true, htw, List.filterMap_nil, List.append_nil, List.nil_append]
      cases hemp : (line.drop 6).isEmpty with
      | true =>
        rw [show flushDiffFile (some (line.drop 6))
            ((rest.takeWhile (fun l => !isFileLine l)).filterMap specHunkRange) = []
          from flush_falsy _ _ (by simpa using hemp)]
        simp
      | false =>
        rw [show flushDiffFile (some (line.drop 6))
            ((rest.takeWhile (fun l => !isFileLine l)).filterMap specHunkRange)
          = [⟨line.drop 6, (rest.takeWhile (fun l => !isFileLine l)).filterMap specHunkRange⟩]
          from by simp [flushDiffFile, hemp]]
        simp
    | false =>
      rw [show ((str "+++ b/").isPrefixOf line) = false from hfl]
      simp only [Bool.false_eq_true, if_false]
      have hgoA : parse_diff_spec_amended_go (line :: rest) = parse_diff_spec_amended_go rest := by
        rw [parse_diff_spec_amended_go, hfl]
        simp
      have htw : (line :: rest).takeWhile (fun l => !isFileLine l)
          = line :: rest.takeWhile (fun l => !isFileLine l) := by
        rw [List.takeWhile_cons]
        simp [hfl]
      rw [hgoA, htw, List.filterMap_cons]
      cases hat : (str "@@").isPrefixOf line with
      | false =>
        simp only [Bool.false_and, Bool.false_eq_true, if_false]
        have hsr : specHunkRange line = none := by
          unfold specHunkRange
          rw [hat]
          simp
        rw [hsr]
        exact ih files cur lines
      | true =>
        have hsr : specHunkRange line = (findPlusNum line).map (fun p => hunkRange p.1 p.2) := by
          unfold specHunkRange
          rw [hat]
          simp
        rw [hsr]
        cases hcur : (cur.getD []).isEmpty with
        | true =>
          simp only [Bool.not_true, Bool.and_false, Bool.false_eq_true, if_false]
          rw [ih files cur lines]
          rw [flush_falsy cur _ hcur, flush_falsy cur _ hcur]
        | false =>
          simp only [Bool.not_false, Bool.and_true, if_true]
          cases hfp : findPlusNum line with
          | none =>
            simp only [Option.map_none]
            rw [ih files cur lines]
            rfl
          | some p =>
            simp only [Option.map_some]
            rw [ih files cur (lines ++ [hunkRange p.1 p.2])]
            rw [List.append_assoc lines [hunkRange p.1 p.2]]
            rfl

/-- C10 (amended): `parse_diff_files` returns one record per `+++ b/` line
with a non-empty remainder, in order, with the remainder as path and the
new-side ranges of the subsequent hunk headers up to the next `+++ b/` line;
a `+++ b/` line with empty remainder produces no record (empty strings are
falsy) and the hunk headers following it are dropped; hunk headers before the
first `+++ b/` line are ignored. -/
theorem c10_parse_diff_amended (diff_text : Str) :
    parse_diff_files diff_text = parse_diff_spec_amended diff_text := by
  unfold parse_diff_files parse_diff_spec_amended
  rw [parseDiffGo_spec (pySplitChar '\n' diff_text) [] none []]
  rfl

/-- C10 counterexample: on the diff `+++ b/` (empty remainder) followed by a
hunk header, the code returns no record while the claim as stated requires a
record with the empty path and range 3–6. -/
theorem c10_parse_diff_counterexample :
    parse_diff_files (str "+++ b/\n@@ -1 +3,4 @@") = []
    ∧ parse_diff_spec (str "+++ b/\n@@ -1 +3,4 @@") = [⟨[], [⟨3, 6⟩]⟩]
    ∧ decide (parse_diff_files (str "+++ b/\n@@ -1 +3,4 @@")
        = parse_diff_spec (str "+++ b/\n@@ -1 +3,4 @@")) = false :=
  ⟨rfl, rfl, rfl⟩
